import Mathlib

/-!
Verification of the stalog runtime evaluator (`runtime.go`, package `runtime`).

The evaluator owns a symbol table, a value stack and a log, and executes two
instruction kinds: `Push(symbolIdx)` and `Permute(pop, push)`.  We embed the
Go code shallowly: Go `int`/`int32` become `Int` (none of the involved
expressions can overflow for 32-bit inputs), slices become `List`, early
`return err` becomes an explicit outcome constructor, an unconditional Go
runtime panic (index out of range) becomes the `crash` outcome, and the one
spot whose behavior depends on slice capacity — which lists do not track —
becomes the `unspecified` outcome.
-/

namespace Stalog

/-- Go: `type Value interface`, with `Symbol int` and `Tree struct{Children []Value}`. -/
inductive Value where
  | Symbol (i : Int)
  | Tree (children : List Value)

/-- Go: `type Runtime struct { Symbols []string; Stack []Value; Log []Value }`. -/
structure Runtime where
  Symbols : List String
  Stack : List Value
  Log : List Value

/-- The error values the evaluator can return.  Go has a single package-level
sentinel `var Err = errors.New("misc error")`, returned both by `push` for a
bad symbol index and by `permute` for a bad window index; the insufficient
stack failure is a distinct `fmt.Errorf` value carrying the requested pop
count and the actual stack size. -/
inductive EvalErr where
  | err
  | insufficientStack (pop : Int) (size : Nat)
deriving DecidableEq

/-- Result of one evaluation step: normal return of the mutated runtime,
an error return (carrying the runtime as it is at the return site), an
unconditional Go runtime panic, or behavior this embedding leaves
unspecified because it depends on the slice's spare capacity and on the
contents of the underlying array past the stack top, neither of which a
`List` tracks. -/
inductive Outcome where
  | ok (r : Runtime)
  | fail (e : EvalErr) (r : Runtime)
  | crash
  | unspecified

/-- Go: `func (r *Runtime) get(idx int32) Value { return r.Stack[len(r.Stack)-1-int(idx)] }`.
Indexing a Go slice at a position outside `[0, len)` panics; we return `none`
in that case. -/
def get (r : Runtime) (idx : Int) : Option Value :=
  if 0 ≤ (r.Stack.length : Int) - 1 - idx then
    r.Stack.get? ((r.Stack.length : Int) - 1 - idx).toNat
  else none

/-- Result of the `for _, idx := range p.Push` loop in `permute`. -/
inductive LoopRes where
  | ok (vs : List Value)
  | err
  | crash

/-- Go: the loop in `permute` building `pushes`: for each `idx`, return `Err`
if `p.Pop <= idx`, else append `r.get(idx)` (which panics when `idx < 0`). -/
def permutePushes (r : Runtime) (pop : Int) : List Int → LoopRes
  | [] => .ok []
  | idx :: rest =>
    if pop ≤ idx then .err
    else
      match get r idx with
      | none => .crash
      | some v =>
        match permutePushes r pop rest with
        | .ok vs => .ok (v :: vs)
        | .err => .err
        | .crash => .crash

/-- Go: `func (r *Runtime) push(p *pb.Push) error`. -/
def push (r : Runtime) (symbolIdx : Int) : Outcome :=
  if (r.Symbols.length : Int) ≤ symbolIdx then .fail .err r
  else .ok { r with Stack := r.Stack ++ [.Symbol symbolIdx] }

/-- Go: `func (r *Runtime) permute(p *pb.Permute) error`.  After the loop the
code runs `r.Stack = r.Stack[:len(r.Stack)-int(p.Pop)]` and appends the
collected values.  When `pop < 0` (reachable only with an empty push list)
that slice's upper bound exceeds `len(r.Stack)`: Go slicing panics when the
bound exceeds the capacity, and otherwise succeeds, returning a nil error
while exposing the stale or zeroed array slots between the old length and
the bound as stack elements.  Capacity and those hidden slots are not part
of this model, so the outcome is `unspecified`. -/
def permute (r : Runtime) (pop : Int) (pushIdxs : List Int) : Outcome :=
  if (r.Stack.length : Int) < pop then .fail (.insufficientStack pop r.Stack.length) r
  else
    match permutePushes r pop pushIdxs with
    | .err => .fail .err r
    | .crash => .crash
    | .ok vs =>
      if pop < 0 then .unspecified
      else .ok { r with Stack := r.Stack.take (r.Stack.length - pop.toNat) ++ vs }

/-- Go: the two shapes of `pb.Operation`: `Push{SymbolIdx: int32}` and
`Permute{Pop: int32, Push: []int32}`. -/
inductive Operation where
  | Push (symbolIdx : Int)
  | Permute (pop : Int) (pushIdxs : List Int)

/-- Go: `func (r *Runtime) Eval(o *pb.Operation) error`, dispatching on the
operation kind.  The `Operation` type is closed, so the Go `panic("bad
opcode")` default branch has no counterpart here. -/
def Eval (r : Runtime) (o : Operation) : Outcome :=
  match o with
  | .Push i => push r i
  | .Permute pop pushIdxs => permute r pop pushIdxs

/-- The runtime observable after a call that returned (normally or with an
error); a panic leaves nothing observable. -/
def outState : Outcome → Option Runtime
  | .ok r => some r
  | .fail _ r => some r
  | .crash => none
  | .unspecified => none

/-- Whether a value is a `Symbol` (as opposed to a `Tree`). -/
def Value.isSym : Value → Bool
  | .Symbol _ => true
  | .Tree _ => false

/-- Spec-side definition, following the spec's words: the window is the top
`pop` elements indexed by depth-from-top, index `0` being the current top,
so `window[e]` is the stack element at position `length - 1 - e`. -/
def windowGet (stack : List Value) (e : Nat) : Value :=
  stack.getD (stack.length - 1 - e) (.Symbol 0)

/-- Spec-side definition of the permute result, following the spec's words:
remove the window (shrink the stack by `pop`), then append `window[e]` for
each entry `e` of `push` in order. -/
def permuteSpec (stack : List Value) (pop : Nat) (pushIdxs : List Nat) : List Value :=
  stack.take (stack.length - pop) ++ pushIdxs.map (windowGet stack)

/-- The identity push list on a window of size `n`: `[n-1, …, 1, 0]`. -/
def idPush (n : Nat) : List Int :=
  (List.range n).map (fun i => ((n - 1 - i : Nat) : Int))

/-- A cyclic permutation (rotation by `k`) of the identity push list. -/
def rotPush (n k : Nat) : List Int :=
  (idPush n).rotate k

/-- Evaluate the same operation `j` times in succession, stopping at the
first failure or panic. -/
def evalN (o : Operation) : Nat → Runtime → Outcome
  | 0, r => .ok r
  | j + 1, r =>
    match Eval r o with
    | .ok r' => evalN o j r'
    | out => out

/-- The five-symbol table used by the repository's tests. -/
def symsABCDE : List String := ["A", "B", "C", "D", "E"]

/-- A fresh runtime over the test symbol table, with an empty stack. -/
def rtEmpty : Runtime := { Symbols := symsABCDE, Stack := [], Log := [] }

/-- A runtime whose stack is `[A, B, C, D]` (bottom to top), as in the tests. -/
def rtABCD : Runtime :=
  { Symbols := symsABCDE
    Stack := [.Symbol 0, .Symbol 1, .Symbol 2, .Symbol 3]
    Log := [] }

/-- A one-symbol, one-element-stack runtime used to exhibit the negative
window index panic. -/
def rtSingle : Runtime := { Symbols := ["A"], Stack := [.Symbol 0], Log := [] }

/-- The runtime obtained from `rtEmpty` by pushing symbol `0`. -/
def rtA : Runtime := { rtEmpty with Stack := [.Symbol 0] }

/-- A one-symbol runtime whose stack holds three symbols, reachable by three
`Push(0)` calls from an empty stack (whose Go slice then has length 3 and,
under the runtime's doubling append growth, capacity 4 with a zeroed fourth
slot). -/
def rtAAA : Runtime :=
  { Symbols := ["A"], Stack := [.Symbol 0, .Symbol 0, .Symbol 0], Log := [] }

example : Eval rtEmpty (.Push 0) =
    .ok { rtEmpty with Stack := [.Symbol 0] } := rfl

example : Eval rtEmpty (.Push 10) = .fail .err rtEmpty := rfl

example : Eval rtABCD (.Permute 3 [0, 2, 1]) =
    .ok { rtABCD with Stack := [.Symbol 0, .Symbol 3, .Symbol 1, .Symbol 2] } := rfl

example : Eval rtABCD (.Permute 3 [2, 3, 0]) = .fail .err rtABCD := rfl

example : Eval rtEmpty (.Permute 1 []) = .fail (.insufficientStack 1 0) rtEmpty := rfl

example : Eval rtSingle (.Permute 1 [-1]) = .crash := rfl

example : rotPush 3 1 = [1, 0, 2] := rfl

example : evalN (.Permute 3 (rotPush 3 1)) 3 rtABCD = .ok rtABCD := rfl

/-! ## Helper lemmas -/

/-- When the window index is in range, `get` reads the stack element at
depth `idx` from the top, which is exactly the spec's `window[idx]`. -/
theorem get_eq_windowGet (r : Runtime) (idx : Int)
    (h0 : 0 ≤ idx) (h1 : idx < (r.Stack.length : Int)) :
    get r idx = some (windowGet r.Stack idx.toNat) := by
  have hlt : r.Stack.length - 1 - idx.toNat < r.Stack.length := by omega
  have htn : ((r.Stack.length : Int) - 1 - idx).toNat
      = r.Stack.length - 1 - idx.toNat := by omega
  unfold get windowGet
  rw [if_pos (by omega), htn, List.get?_eq_get hlt, List.getD_eq_getElem _ _ hlt]
  rfl

/-- Anything `get` returns is an element of the stack. -/
theorem get_mem (r : Runtime) (idx : Int) (v : Value) (h : get r idx = some v) :
    v ∈ r.Stack := by
  unfold get at h
  split at h
  · exact List.get?_mem h
  · exact absurd h (by simp)

/-- When every requested window index is in `[0, pop)` and the window fits on
the stack, the push-collection loop succeeds and returns exactly the spec's
selected values, in order. -/
theorem permutePushes_ok (r : Runtime) (pop : Int) (pushIdxs : List Int)
    (hpop : pop ≤ (r.Stack.length : Int))
    (hin : ∀ e ∈ pushIdxs, 0 ≤ e ∧ e < pop) :
    permutePushes r pop pushIdxs
      = .ok (pushIdxs.map (fun e => windowGet r.Stack e.toNat)) := by
  induction pushIdxs with
  | nil => rfl
  | cons idx rest ih =>
    obtain ⟨h0, h1⟩ := hin idx (by simp)
    have hrest := ih (fun e he => hin e (by simp [he]))
    unfold permutePushes
    rw [if_neg (by omega), get_eq_windowGet r idx h0 (by omega), hrest]
    rfl

/-- Every element the loop collects comes from the stack. -/
theorem permutePushes_mem (r : Runtime) (pop : Int) (pushIdxs : List Int)
    (vs : List Value) (h : permutePushes r pop pushIdxs = .ok vs) :
    ∀ v ∈ vs, v ∈ r.Stack := by
  induction pushIdxs generalizing vs with
  | nil =>
    unfold permutePushes at h
    cases h
    simp
  | cons idx rest ih =>
    unfold permutePushes at h
    split at h
    · exact absurd h (by simp)
    · cases hg : get r idx with
      | none => rw [hg] at h; exact absurd h (by simp)
      | some v =>
        rw [hg] at h
        cases hr : permutePushes r pop rest with
        | ok vs' =>
          rw [hr] at h
          cases h
          intro w hw
          rcases List.mem_cons.mp hw with hw | hw
          · exact hw ▸ get_mem r idx v hg
          · exact ih vs' hr w hw
        | err => rw [hr] at h; exact absurd h (by simp)
        | crash => rw [hr] at h; exact absurd h (by simp)

/-- Claim C1 core: a `Permute` whose preconditions hold (a well-defined pop
count that fits on the stack, and every push entry inside the window)
succeeds, and the resulting stack is exactly the one the spec describes. -/
theorem permute_meets_spec (r : Runtime) (pop : Int) (pushIdxs : List Int)
    (h0 : 0 ≤ pop) (h1 : pop ≤ (r.Stack.length : Int))
    (hin : ∀ e ∈ pushIdxs, 0 ≤ e ∧ e < pop) :
    Eval r (.Permute pop pushIdxs)
      = .ok { r with
              Stack := permuteSpec r.Stack pop.toNat (pushIdxs.map Int.toNat) } := by
  show permute r pop pushIdxs = _
  unfold permute
  rw [if_neg (by omega), permutePushes_ok r pop pushIdxs h1 hin]
  dsimp only
  rw [if_neg (by omega)]
  unfold permuteSpec
  rw [List.map_map]
  rfl

/-- Every error return of `Eval` hands back the very runtime it was given:
each early `return` in the Go code happens before any assignment. -/
theorem eval_fail_eq (r : Runtime) (o : Operation) (e : EvalErr) (r' : Runtime)
    (h : Eval r o = .fail e r') : r' = r := by
  cases o with
  | Push i =>
    have h' : push r i = Outcome.fail e r' := h
    unfold push at h'
    split at h'
    · injection h' with h1 h2
      exact h2.symm
    · exact Outcome.noConfusion h'
  | Permute pop pushIdxs =>
    have h' : permute r pop pushIdxs = Outcome.fail e r' := h
    unfold permute at h'
    split at h'
    · injection h' with h1 h2
      exact h2.symm
    · split at h'
      · injection h' with h1 h2
        exact h2.symm
      · exact Outcome.noConfusion h'
      · split at h'
        · exact Outcome.noConfusion h'
        · exact Outcome.noConfusion h'

/-- Inversion for a successful `permute`: the loop succeeded and the new
stack is the truncated old stack followed by the collected values. -/
theorem permute_ok_inv (r : Runtime) (pop : Int) (pushIdxs : List Int)
    (r' : Runtime) (h : permute r pop pushIdxs = .ok r') :
    ∃ vs, permutePushes r pop pushIdxs = .ok vs ∧
      r' = { r with Stack := r.Stack.take (r.Stack.length - pop.toNat) ++ vs } := by
  unfold permute at h
  split at h
  · exact Outcome.noConfusion h
  · cases hloop : permutePushes r pop pushIdxs with
    | err => rw [hloop] at h; exact Outcome.noConfusion h
    | crash => rw [hloop] at h; exact Outcome.noConfusion h
    | ok vs =>
      rw [hloop] at h
      have h2 : (if pop < 0 then Outcome.unspecified
          else Outcome.ok { r with
            Stack := r.Stack.take (r.Stack.length - pop.toNat) ++ vs })
          = Outcome.ok r' := h
      split at h2
      · exact Outcome.noConfusion h2
      · injection h2 with h3
        exact ⟨vs, rfl, h3.symm⟩

/-- If the first out-of-window entry of the push list comes after entries
that are all inside the window, the collection loop returns the sentinel
error. -/
theorem permutePushes_err (r : Runtime) (pop : Int) (pre : List Int)
    (bad : Int) (rest : List Int)
    (hpop : pop ≤ (r.Stack.length : Int))
    (hpre : ∀ e ∈ pre, 0 ≤ e ∧ e < pop)
    (hbad : pop ≤ bad) :
    permutePushes r pop (pre ++ bad :: rest) = .err := by
  induction pre with
  | nil =>
    show permutePushes r pop (bad :: rest) = _
    unfold permutePushes
    rw [if_pos hbad]
  | cons e pre' ih =>
    obtain ⟨h0, h1⟩ := hpre e (by simp)
    show permutePushes r pop (e :: (pre' ++ bad :: rest)) = _
    unfold permutePushes
    rw [if_neg (by omega), get_eq_windowGet r e h0 (by omega),
      ih (fun x hx => hpre x (by simp [hx]))]

/-- The identity push list has length `n`. -/
theorem length_idPush (n : Nat) : (idPush n).length = n := by
  unfold idPush
  rw [List.length_map, List.length_range]

/-- Element `j` of the identity push list `[n-1, …, 0]` is `n - 1 - j`. -/
theorem idPush_get? (n j : Nat) (h : j < n) :
    (idPush n).get? j = some ((n - 1 - j : Nat) : Int) := by
  unfold idPush
  rw [List.get?_map, List.get?_range h]
  rfl

/-- Every entry of a rotated identity push list lies inside the window. -/
theorem rotPush_mem (n k : Nat) : ∀ e ∈ rotPush n k, 0 ≤ e ∧ e < (n : Int) := by
  intro e he
  rw [rotPush, List.mem_rotate] at he
  unfold idPush at he
  simp at he
  obtain ⟨i, hi, rfl⟩ := he
  constructor <;> omega

/-- Selecting the window through a rotated identity push list rotates the
top part of the stack. -/
theorem map_window_rotPush (b t : List Value) (n k : Nat) (hn : t.length = n)
    (hpos : 0 < n) :
    ((rotPush n k).map Int.toNat).map (windowGet (b ++ t)) = t.rotate k := by
  apply List.ext_get?
  intro i
  by_cases hi : i < n
  · have hlen : (idPush n).length = n := length_idPush n
    have hj : (i + k) % n < n := Nat.mod_lt _ hpos
    rw [List.get?_map, List.get?_map, rotPush,
      List.get?_rotate (by rw [hlen]; exact hi), hlen,
      idPush_get? n ((i + k) % n) hj,
      List.get?_rotate (by rw [hn]; exact hi), hn]
    simp only [Option.map_some', Int.toNat_natCast]
    unfold windowGet
    have hidx : (b ++ t).length - 1 - (n - 1 - (i + k) % n)
        = b.length + (i + k) % n := by
      rw [List.length_append, hn]
      omega
    rw [hidx, List.getD_append_right _ _ _ _ (Nat.le_add_right _ _),
      Nat.add_sub_cancel_left,
      List.getD_eq_getElem _ _ (show (i + k) % n < t.length by omega),
      List.get?_eq_get (show (i + k) % n < t.length by omega)]
    rfl
  · have h1 : (((rotPush n k).map Int.toNat).map (windowGet (b ++ t))).length
        = n := by
      rw [List.length_map, List.length_map, rotPush, List.length_rotate,
        length_idPush]
    have h2 : (t.rotate k).length = n := by simp [hn]
    rw [List.get?_eq_none.mpr (by omega), List.get?_eq_none.mpr (by omega)]

/-- One application of a rotated-identity `Permute` rotates the top `n`
elements of the stack left by `k` and touches nothing else. -/
theorem rot_step (sy : List String) (lo : List Value) (b t : List Value)
    (n k : Nat) (hn : t.length = n) (hpos : 0 < n) :
    Eval ⟨sy, b ++ t, lo⟩ (.Permute (n : Int) (rotPush n k))
      = .ok ⟨sy, b ++ t.rotate k, lo⟩ := by
  have hmain := permute_meets_spec ⟨sy, b ++ t, lo⟩ (n : Int) (rotPush n k)
    (by omega) (by simp [hn]) (rotPush_mem n k)
  rw [hmain]
  unfold permuteSpec
  simp only [Int.toNat_natCast]
  have hb : (b ++ t).length - n = b.length := by
    rw [List.length_append, hn]
    omega
  rw [hb, List.take_left, map_window_rotPush b t n k hn hpos]

/-- Iterating a rotated-identity `Permute` `j` times rotates the top part
by `j * k`. -/
theorem evalN_rotate (sy : List String) (lo : List Value) (n k : Nat)
    (hpos : 0 < n) :
    ∀ (j : Nat) (b t : List Value), t.length = n →
      evalN (.Permute (n : Int) (rotPush n k)) j ⟨sy, b ++ t, lo⟩
        = .ok ⟨sy, b ++ t.rotate (j * k), lo⟩ := by
  intro j
  induction j with
  | zero =>
    intro b t hn
    simp [evalN]
  | succ m ih =>
    intro b t hn
    rw [evalN, rot_step sy lo b t n k hn hpos]
    dsimp only
    rw [ih b (t.rotate k) (by simp [hn]), List.rotate_rotate]
    have harith : k + m * k = (m + 1) * k := by ring
    rw [harith]

/-! ## Claim theorems -/

/-- C1: for every stack and every `Permute(pop, push)` satisfying both
preconditions (`pop` a well-defined count at most the stack size, every push
entry in `[0, pop)`), `execute` succeeds; the resulting stack is the original
with the window removed and `window[e]` appended for each push entry `e` in
order; the size changes by `len(push) - pop`, and the elements below the
window are untouched, keeping their relative order. -/
theorem c1_permute_window_semantics (r : Runtime) (pop : Int) (pushIdxs : List Int)
    (h0 : 0 ≤ pop) (h1 : pop ≤ (r.Stack.length : Int))
    (hin : ∀ e ∈ pushIdxs, 0 ≤ e ∧ e < pop) :
    Eval r (.Permute pop pushIdxs)
      = .ok { r with
              Stack := permuteSpec r.Stack pop.toNat (pushIdxs.map Int.toNat) } ∧
    (permuteSpec r.Stack pop.toNat (pushIdxs.map Int.toNat)).length
      = (r.Stack.length - pop.toNat) + pushIdxs.length ∧
    (permuteSpec r.Stack pop.toNat (pushIdxs.map Int.toNat)).take
        (r.Stack.length - pop.toNat)
      = r.Stack.take (r.Stack.length - pop.toNat) := by
  refine ⟨permute_meets_spec r pop pushIdxs h0 h1 hin, ?_, ?_⟩
  · simp [permuteSpec]
  · unfold permuteSpec
    rw [List.take_left' (by simp)]

/-- C1 witness: `Permute(3, [0,2,1])` on stack `[A,B,C,D]` (the repository's
"roll right" test case) succeeds and yields `[A,D,B,C]`. -/
theorem c1_witness :
    Eval rtABCD (.Permute 3 [0, 2, 1])
      = .ok { rtABCD with Stack := permuteSpec rtABCD.Stack 3 [0, 2, 1] } ∧
    permuteSpec rtABCD.Stack 3 [0, 2, 1]
      = [.Symbol 0, .Symbol 3, .Symbol 1, .Symbol 2] :=
  ⟨(c1_permute_window_semantics rtABCD 3 [0, 2, 1] (by decide) (by decide)
      (by decide)).1, rfl⟩

/-- C2 counterexample: the claim "Push(i) succeeds iff 0 ≤ i < len(symbols)"
fails at `i = -1`: on the five-symbol table the call succeeds (appending
`Symbol(-1)`) even though `0 ≤ -1` is false. -/
theorem c2_counterexample :
    Eval rtEmpty (.Push (-1)) = .ok { rtEmpty with Stack := [.Symbol (-1)] } ∧
    ¬ (0 ≤ (-1 : Int)) :=
  ⟨rfl, by decide⟩

/-- C2 amended: `Push(i)` succeeds iff `i < len(symbols)` (the code checks
only the upper bound, so every negative index succeeds too); on success it
appends `Symbol(i)`, and on failure it returns the sentinel error with the
runtime unchanged. -/
theorem c2_push_success_iff (r : Runtime) (i : Int) :
    (Eval r (.Push i) = .ok { r with Stack := r.Stack ++ [.Symbol i] }
      ↔ i < (r.Symbols.length : Int)) ∧
    ((r.Symbols.length : Int) ≤ i → Eval r (.Push i) = .fail .err r) := by
  constructor
  · constructor
    · intro h
      by_contra hge
      have hfail : Eval r (.Push i) = .fail .err r := by
        show push r i = _
        unfold push
        rw [if_pos (by omega)]
      rw [hfail] at h
      exact Outcome.noConfusion h
    · intro h
      show push r i = _
      unfold push
      rw [if_neg (by omega)]
  · intro h
    show push r i = _
    unfold push
    rw [if_pos h]

/-- C2 witness: on the five-symbol table, `Push(1)` succeeds appending
`Symbol(1)` and `Push(10)` fails with the sentinel error. -/
theorem c2_witness :
    Eval rtEmpty (.Push 1) = .ok { rtEmpty with Stack := [.Symbol 1] } ∧
    Eval rtEmpty (.Push 10) = .fail .err rtEmpty :=
  ⟨(c2_push_success_iff rtEmpty 1).1.mpr (by decide),
   (c2_push_success_iff rtEmpty 10).2 (by decide)⟩

/-- C4: whenever `execute` returns an error, the runtime it leaves behind has
exactly the stack and the log it had before the call: no failure path
performs any partial mutation. -/
theorem c4_failure_atomicity (r : Runtime) (o : Operation) (e : EvalErr)
    (r' : Runtime) (h : Eval r o = .fail e r') :
    r'.Stack = r.Stack ∧ r'.Log = r.Log := by
  cases o with
  | Push i =>
    have h' : push r i = Outcome.fail e r' := h
    unfold push at h'
    split at h'
    · injection h' with h1 h2
      subst h2
      exact ⟨rfl, rfl⟩
    · exact Outcome.noConfusion h'
  | Permute pop pushIdxs =>
    have h' : permute r pop pushIdxs = Outcome.fail e r' := h
    unfold permute at h'
    split at h'
    · injection h' with h1 h2
      subst h2
      exact ⟨rfl, rfl⟩
    · split at h'
      · injection h' with h1 h2
        subst h2
        exact ⟨rfl, rfl⟩
      · exact Outcome.noConfusion h'
      · split at h'
        · exact Outcome.noConfusion h'
        · exact Outcome.noConfusion h'

/-- C4 witness: popping from the empty stack fails, and the post-call stack
and log equal the pre-call ones. -/
theorem c4_witness :
    Eval rtEmpty (.Permute 1 []) = .fail (.insufficientStack 1 0) rtEmpty ∧
    (rtEmpty.Stack = rtEmpty.Stack ∧ rtEmpty.Log = rtEmpty.Log) :=
  ⟨rfl, c4_failure_atomicity rtEmpty (.Permute 1 []) (.insufficientStack 1 0)
    rtEmpty rfl⟩

/-- C5: a `Permute` whose pop count exceeds the current stack size always
fails with the insufficient-stack error, which reports the requested pop
count and the actual stack size, and the runtime is left unchanged. -/
theorem c5_insufficient_stack (r : Runtime) (pop : Int) (pushIdxs : List Int)
    (h : (r.Stack.length : Int) < pop) :
    Eval r (.Permute pop pushIdxs)
      = .fail (.insufficientStack pop r.Stack.length) r := by
  show permute r pop pushIdxs = _
  unfold permute
  rw [if_pos h]

/-- C5 witness: `Permute(2, [0])` on the empty stack fails with
`insufficientStack 2 0`. -/
theorem c5_witness :
    (rtEmpty.Stack.length : Int) < 2 ∧
    Eval rtEmpty (.Permute 2 [0]) = .fail (.insufficientStack 2 0) rtEmpty :=
  ⟨by decide, c5_insufficient_stack rtEmpty 2 [0] (by decide)⟩

/-- C8: for every negative symbol index `i`, `Push(i)` succeeds and appends
`Symbol(i)`: the bounds check in the code rejects only indices at or above
the table length, never negative ones. -/
theorem c8_negative_push_succeeds (r : Runtime) (i : Int) (h : i < 0) :
    Eval r (.Push i) = .ok { r with Stack := r.Stack ++ [.Symbol i] } := by
  show push r i = _
  unfold push
  rw [if_neg (by omega)]

/-- C8 witness: `Push(-7)` on the five-symbol table succeeds and appends
`Symbol(-7)`. -/
theorem c8_witness :
    (-7 : Int) < 0 ∧
    Eval rtEmpty (.Push (-7)) = .ok { rtEmpty with Stack := [.Symbol (-7)] } :=
  ⟨by decide, c8_negative_push_succeeds rtEmpty (-7) (by decide)⟩

/-- C9: `Permute(0, [])` succeeds on every runtime, including one with an
empty stack, and returns the runtime exactly unchanged (stack and log
included): the empty permute is an identity of evaluation. -/
theorem c9_empty_permute_identity (r : Runtime) :
    Eval r (.Permute 0 []) = .ok r := by
  show permute r 0 [] = _
  unfold permute permutePushes
  rw [if_neg (by omega)]
  dsimp only
  rw [if_neg (by omega)]
  simp

/-- C3 (code-bug exhibit): with one symbol and stack `[Symbol 0]`, the
instruction `Permute(1, [-1])` has a push entry outside `[0, 1)`, yet the
code does not return the invalid-window-index error: the guard checks only
`pop <= idx`, so `-1` passes and `r.get(-1)` reads `r.Stack[1]`, an index
out of range, i.e. a Go runtime panic. -/
theorem c3_negative_window_index_panics :
    Eval rtSingle (.Permute 1 [-1]) = .crash := rfl

/-- C6: using a cyclic permutation (rotation by `k`) of the identity push
list `[n-1, …, 0]` as the push list of a `Permute` with `pop = n`, applying
that same instruction exactly `n` times in succession returns the whole
stack, and in particular the top-`n` window, to its original order. -/
theorem c6_rotation_period (r : Runtime) (n k : Nat) (hpos : 0 < n)
    (hn : n ≤ r.Stack.length) :
    evalN (.Permute (n : Int) (rotPush n k)) n r = .ok r := by
  obtain ⟨sy, st, lo⟩ := r
  have hn' : n ≤ st.length := hn
  have hlen : (st.drop (st.length - n)).length = n := by
    rw [List.length_drop]
    omega
  have hsplit : st = st.take (st.length - n) ++ st.drop (st.length - n) :=
    (List.take_append_drop _ _).symm
  rw [hsplit, evalN_rotate sy lo n k hpos n _ _ hlen]
  have hrot := List.rotate_length_mul (st.drop (st.length - n)) k
  rw [hlen] at hrot
  rw [hrot]

/-- C6 witness: rotating the top three of `[A,B,C,D]` by one, three times in
a row, restores the stack (the repository's "roll 3" test). -/
theorem c6_witness :
    0 < 3 ∧ 3 ≤ rtABCD.Stack.length ∧
    evalN (.Permute 3 (rotPush 3 1)) 3 rtABCD = .ok rtABCD :=
  ⟨by decide, by decide, c6_rotation_period rtABCD 3 1 (by decide) (by decide)⟩

/-- On every specified outcome (normal return or error return), the runtime
`execute` leaves behind has the same symbol table and the same log, and no
`Tree` value is constructed: a stack of symbols stays a stack of symbols.
The negative-pop reslice, whose outcome is capacity-dependent and hence
unspecified in this model, is exactly the path this lemma does not cover. -/
theorem eval_preserves_symbols_log (r : Runtime) (o : Operation)
    (r' : Runtime) (h : outState (Eval r o) = some r') :
    r'.Symbols = r.Symbols ∧ r'.Log = r.Log ∧
    ((∀ v ∈ r.Stack, v.isSym = true) → ∀ v ∈ r'.Stack, v.isSym = true) := by
  cases hev : Eval r o with
  | crash =>
    rw [hev] at h
    exact absurd h (by simp [outState])
  | unspecified =>
    rw [hev] at h
    exact absurd h (by simp [outState])
  | fail e rf =>
    rw [hev] at h
    have h2 : some rf = some r' := h
    injection h2 with h2
    subst h2
    rw [eval_fail_eq r o e rf hev]
    exact ⟨rfl, rfl, fun hall => hall⟩
  | ok rok =>
    rw [hev] at h
    have h2 : some rok = some r' := h
    injection h2 with h2
    subst h2
    cases o with
    | Push i =>
      have h3 : push r i = Outcome.ok rok := hev
      unfold push at h3
      split at h3
      · exact Outcome.noConfusion h3
      · injection h3 with h3
        subst h3
        refine ⟨rfl, rfl, fun hall v hv => ?_⟩
        rcases List.mem_append.mp hv with hv | hv
        · exact hall v hv
        · simp at hv
          subst hv
          rfl
    | Permute pop pushIdxs =>
      have h3 : permute r pop pushIdxs = Outcome.ok rok := hev
      obtain ⟨vs, hloop, hrok⟩ := permute_ok_inv r pop pushIdxs rok h3
      subst hrok
      refine ⟨rfl, rfl, fun hall v hv => ?_⟩
      rcases List.mem_append.mp hv with hv | hv
      · exact hall v (List.take_subset _ _ hv)
      · exact hall v (permutePushes_mem r pop pushIdxs vs hloop v hv)

/-- C7 (code-bug exhibit): `Permute(-1, [])` on the reachable all-symbols
stack `[A, A, A]` passes the size check (`3 < -1` is false), runs an empty
loop, and reaches the reslice `r.Stack[:4]`, whose result depends on the
slice's spare capacity: with none it panics, and with spare capacity (as
after three appends under the Go runtime's doubling growth) it returns a
nil error while exposing a zeroed `nil` slot — a non-`Symbol` value — as a
new stack element.  The claim's all-symbols preservation and total outcome
contract over the closed instruction set are thus violated; the model
records the capacity-dependent outcome as `unspecified`. -/
theorem c7_negative_pop_outcome_unspecified :
    Eval rtAAA (.Permute (-1) []) = .unspecified := rfl

/-- C10: the error returned by `Push` on an out-of-range symbol index and
the error returned by `Permute` on a window index at or above `pop` are the
same sentinel value (`Err` in the Go code), so the two failure kinds cannot
be told apart from the returned error; only the insufficient-stack failure
is a distinct error value. -/
theorem c10_shared_sentinel_error (r r2 : Runtime) (i : Int) (pop : Int)
    (pre : List Int) (bad : Int) (rest : List Int)
    (hi : (r.Symbols.length : Int) ≤ i)
    (hpop : pop ≤ (r2.Stack.length : Int))
    (hpre : ∀ e ∈ pre, 0 ≤ e ∧ e < pop)
    (hbad : pop ≤ bad) :
    Eval r (.Push i) = .fail .err r ∧
    Eval r2 (.Permute pop (pre ++ bad :: rest)) = .fail .err r2 ∧
    ∀ p s, EvalErr.err ≠ EvalErr.insufficientStack p s := by
  refine ⟨?_, ?_, ?_⟩
  · show push r i = _
    unfold push
    rw [if_pos hi]
  · show permute r2 pop (pre ++ bad :: rest) = _
    unfold permute
    rw [if_neg (by omega), permutePushes_err r2 pop pre bad rest hpop hpre hbad]
  · intro p s hc
    exact EvalErr.noConfusion hc

/-- C10 witness: `Push(10)` on the five-symbol table and
`Permute(3, [2,3,0])` on `[A,B,C,D]` (the repository's out-of-bounds test)
both fail with the one sentinel error. -/
theorem c10_witness :
    Eval rtEmpty (.Push 10) = .fail .err rtEmpty ∧
    Eval rtABCD (.Permute 3 [2, 3, 0]) = .fail .err rtABCD :=
  ⟨(c10_shared_sentinel_error rtEmpty rtABCD 10 3 [2] 3 [0] (by decide)
      (by decide) (by decide) (by decide)).1,
   (c10_shared_sentinel_error rtEmpty rtABCD 10 3 [2] 3 [0] (by decide)
      (by decide) (by decide) (by decide)).2.1⟩

end Stalog
